import Mathlib

/-!
# Verification of the MSPileup registry core (WMCore)

Shallow embedding of `WMCore/MicroService/MSPileup/DataStructs/MSPileupObj.py`
and `WMCore/MicroService/MSPileup/MSPileupData.py`.

Python dictionaries with heterogeneous values are modelled as association
lists over a `Value` type (string, int, float-as-rational, bool, list of
strings); MongoDB is modelled as a list of stored documents, with the
store's generated `_id` made explicit and transient store faults passed
as explicit boolean parameters.  A Python exception escaping a registry
method is modelled as `Except.error`; a returned error list is `Except.ok`.
-/

namespace MSPileup

/-- Runtime value of a Python dictionary entry, as used by MSPileup documents.
Floats are modelled as rationals (the code only compares them, never does
float arithmetic). -/
inductive Value where
  | s (v : String)
  | i (v : Int)
  | f (v : ℚ)
  | b (v : Bool)
  | l (v : List String)
  deriving DecidableEq, Repr

/-- A Python dict with string keys: an association list.  Python guarantees
unique keys; theorems that need this take a `Nodup` hypothesis. -/
abbrev Doc := List (String × Value)

/-- `d.get(k)` without default: first binding of `k`. -/
def dget : Doc → String → Option Value
  | [], _ => none
  | kv :: rest, k => if kv.1 == k then some kv.2 else dget rest k

/-- `d.get(k, dflt)`: lookup with default. -/
def dgetD (d : Doc) (k : String) (dflt : Value) : Value :=
  (dget d k).getD dflt

/-- `d[k] = v`: Python dict assignment; replaces the first binding in place,
or appends when the key is absent (insertion-order semantics). -/
def dset (d : Doc) (k : String) (v : Value) : Doc :=
  match d with
  | [] => [(k, v)]
  | kv :: rest => if kv.1 == k then (k, v) :: rest else kv :: dset rest k v

/-- `d.pop(k, None)` for each `k` in `ks`: removes all bindings of the keys. -/
def popKeys (d : Doc) (ks : List String) : Doc :=
  d.filter (fun kv => !(ks.contains kv.1))

/-- Key list of a dict (`d.keys()`). -/
def keys (d : Doc) : List String := d.map Prod.fst

/-- Python `set(a) == set(b)` on key lists. -/
def keySetEq (a b : List String) : Bool :=
  a.all (fun k => b.contains k) && b.all (fun k => a.contains k)

/-- Python truthiness of a `Value` (`if not pname`). -/
def falsy : Value → Bool
  | .s v => v.isEmpty
  | .i v => v == 0
  | .f v => v == 0
  | .b v => v == false
  | .l v => v.isEmpty

/-- Expected data type of a schema field (second tuple component in
`MSPileupObj.schema`). -/
inductive SType where
  | sStr | sInt | sFloat | sBool | sList
  deriving DecidableEq, Repr

/-- Python `isinstance(val, stype)`.  Note `bool` is a subclass of `int` in
Python, so a boolean value passes an `int` check; an `int` never passes a
`float` check. -/
def typeMatches : Value → SType → Bool
  | .s _, .sStr => true
  | .i _, .sInt => true
  | .b _, .sInt => true
  | .b _, .sBool => true
  | .f _, .sFloat => true
  | .l _, .sList => true
  | _, _ => false

/-- `MSPileupObj.schema`: field name ↦ (default value, expected type). -/
def schema : List (String × Value × SType) :=
  [("pileupName", .s "", .sStr),
   ("pileupType", .s "", .sStr),
   ("insertTime", .i 0, .sInt),
   ("lastUpdateTime", .i 0, .sInt),
   ("expectedRSEs", .l [], .sList),
   ("currentRSEs", .l [], .sList),
   ("fullReplicas", .i 0, .sInt),
   ("campaigns", .l [], .sList),
   ("containerFraction", .f 1, .sFloat),
   ("replicationGrouping", .s "", .sStr),
   ("activatedOn", .i 0, .sInt),
   ("deactivatedOn", .i 0, .sInt),
   ("active", .b false, .sBool),
   ("pileupSize", .i 0, .sInt),
   ("ruleList", .l [], .sList)]

/-- Keys of the schema. -/
def schemaKeys : List String := schema.map Prod.fst

/-- Schema lookup (`docSchema[key]`). -/
def schemaFind (k : String) : Option (Value × SType) :=
  match schema.find? (fun kv => kv.1 == k) with
  | some kv => some kv.2
  | none => none

/-- Splits a character list on `/` (structural version of `splitOn "/"`). -/
def splitSlash : List Char → List (List Char)
  | [] => [[]]
  | c :: rest =>
    if c = '/' then [] :: splitSlash rest
    else
      match splitSlash rest with
      | [] => [[c]]
      | g :: gs => (c :: g) :: gs

/-- Modelled from the spec: `WMCore.Lexicon.dataset` is not part of this
excerpt.  Per the spec, `pileupName` must match the CMS dataset-name pattern
`/primary/processed/tier`: a leading slash and three non-empty `/`-delimited
segments. -/
def datasetMatch (name : String) : Bool :=
  match splitSlash name.data with
  | [[], p, d, t] => !p.isEmpty && !d.isEmpty && !t.isEmpty
  | _ => false

/-- `MSPileupObj.validateRSEs`: a list of RSEs is valid when it equals the
configured list or every element belongs to it. -/
def validateRSEs (validRSEs : List String) (rseList : List String) : Bool :=
  if rseList = validRSEs then true
  else rseList.all (fun rse => validRSEs.contains rse)

/-- The string-ified list of RSEs carried by an RSE-typed value
(after the `isinstance(val, list)` check succeeded). -/
def rsesOf : Value → List String
  | .l xs => xs
  | _ => []

/-- The `containerFraction` range test `val > 1 or val < 0` (reached only
after the `float` type check succeeded). -/
def cfOutOfRange : Value → Bool
  | .f q => q > 1 || q < 0
  | _ => false

/-- One iteration of the `for key, val in pdict.items()` loop body of
`MSPileupObj.validate`: type check, then the per-field domain rules, first
failure wins. -/
def validateEntry (validRSEs : List String) (k : String) (v : Value) :
    Bool × String :=
  match schemaFind k with
  | none => (false, "Failed to validate " ++ k ++ ", not found in schema")
  | some (_, stype) =>
    if !typeMatches v stype then
      (false, "Failed to validate: " ++ k ++ ", unexpected data-type")
    else if k == "pileupName" &&
        !(match v with | .s name => datasetMatch name | _ => false) then
      (false, "pileupName value does not match dataset pattern")
    else if k == "pileupType" && !(v == .s "classic" || v == .s "premix") then
      (false, "pileupType value is neither of classic, premix")
    else if k == "replicationGrouping" && !(v == .s "DATASET" || v == .s "ALL") then
      (false, "replicationGrouping value is neither of DATASET, ALL")
    else if k == "containerFraction" && cfOutOfRange v then
      (false, "containerFraction value outside [0,1] range")
    else if (k == "expectedRSEs" || k == "currentRSEs") &&
        !validateRSEs validRSEs (rsesOf v) then
      (false, k ++ " value is not in validRSEs")
    else (true, "")

/-- The `for key, val in pdict.items()` loop of `MSPileupObj.validate`. -/
def validateItems (validRSEs : List String) : List (String × Value) → Bool × String
  | [] => (true, "")
  | (k, v) :: rest =>
    let r := validateEntry validRSEs k v
    if r.1 then validateItems validRSEs rest else r

/-- `MSPileupObj.validate` applied to a (non-empty) candidate mapping:
key-set equality against the schema first, then the per-entry loop. -/
def validateDoc (validRSEs : List String) (pdict : Doc) : Bool × String :=
  if !keySetEq (keys pdict) schemaKeys then
    (false, "provided object keys are not equal to schema keys")
  else validateItems validRSEs pdict

/-- The fully defaulted 15-field mapping built by `MSPileupObj.__init__`
from the candidate `pdict`: each field is `pdict.get(key, default)`, where
the time fields default to `gmtimeSeconds()` (the explicit `now` parameter)
and `containerFraction` defaults to `1.0`. -/
def defaultedData (pdict : Doc) (now : Int) : Doc :=
  [("pileupName", dgetD pdict "pileupName" (.s "")),
   ("pileupType", dgetD pdict "pileupType" (.s "")),
   ("insertTime", dgetD pdict "insertTime" (.i now)),
   ("lastUpdateTime", dgetD pdict "lastUpdateTime" (.i now)),
   ("expectedRSEs", dgetD pdict "expectedRSEs" (.l [])),
   ("currentRSEs", dgetD pdict "currentRSEs" (.l [])),
   ("fullReplicas", dgetD pdict "fullReplicas" (.i 0)),
   ("campaigns", dgetD pdict "campaigns" (.l [])),
   ("containerFraction", dgetD pdict "containerFraction" (.f 1)),
   ("replicationGrouping", dgetD pdict "replicationGrouping" (.s "")),
   ("activatedOn", dgetD pdict "activatedOn" (.i now)),
   ("deactivatedOn", dgetD pdict "deactivatedOn" (.i now)),
   ("active", dgetD pdict "active" (.b false)),
   ("pileupSize", dgetD pdict "pileupSize" (.i 0)),
   ("ruleList", dgetD pdict "ruleList" (.l []))]

/-- A constructed `MSPileupObj`: its validated data and the configured
valid-RSE list (`self.validRSEs`). -/
structure MSPileupObj where
  data : Doc
  validRSEs : List String
  deriving DecidableEq, Repr

/-- `MSPileupObj.__init__`: build the defaulted data mapping, validate it,
and raise (`Except.error`) when validation fails. -/
def mkMSPileupObj (pdict : Doc) (validRSEs : List String) (now : Int) :
    Except String MSPileupObj :=
  let data := defaultedData pdict now
  let r := validateDoc validRSEs data
  if r.1 then .ok ⟨data, validRSEs⟩
  else .error ("MSPileup input is invalid, " ++ r.2)

/-- `MSPileupObj.validate` as callable on an object: a falsy `pdict`
argument (the empty dict, or omitted) makes the method validate the
object's own internal `self.data` instead. -/
def objValidate (obj : MSPileupObj) (pdict : Doc) : Bool × String :=
  if pdict.isEmpty then validateDoc obj.validRSEs obj.data
  else validateDoc obj.validRSEs pdict

/-- `MSPileupObj.getPileupData`. -/
def getPileupData (obj : MSPileupObj) : Doc := obj.data

/-- The four error classes of `MSPileupError` raised/returned by the
registry (`MSPileupDuplicateDocumentError`, `MSPileupUniqueConstrainError`,
`MSPileupNoKeyFoundError`, `MSPileupDatabaseError`). -/
inductive ErrKind where
  | duplicateDocument | uniqueConstraint | noKeyFound | databaseError
  deriving DecidableEq, Repr

/-- A structured MSPileup error: its kind, the offending input
(spec or document), and a message — the `.error()` result form. -/
structure PileupError where
  kind : ErrKind
  input : Doc
  message : String
  deriving DecidableEq, Repr

/-- The MongoDB collection: the list of stored documents, in insertion
order.  Stored documents carry the store-generated `_id` field. -/
structure Store where
  docs : List Doc
  deriving DecidableEq, Repr

/-- MongoDB equality-query matching: the stored document has every binding
of the spec. -/
def specMatch (spec : Doc) (d : Doc) : Bool :=
  spec.all (fun kv => dget d kv.1 == some kv.2)

/-- `{'pileupName': pname}` query spec. -/
def nameSpec (pname : Value) : Doc := [("pileupName", pname)]

/-- `update_one(spec, {"$set": u})` field merge on one stored document:
every binding of `u` overwrites (or extends) the stored document. -/
def applySet (d : Doc) (u : Doc) : Doc :=
  u.foldl (fun acc kv => dset acc kv.1 kv.2) d

/-- `update_one` updates the first document matching the spec. -/
def updateFirstDoc (ds : List Doc) (spec : Doc) (u : Doc) : List Doc :=
  match ds with
  | [] => []
  | d :: rest =>
    if specMatch spec d then applySet d u :: rest
    else d :: updateFirstDoc rest spec u

/-- `delete_one` removes the first document matching the spec. -/
def deleteFirstDoc (ds : List Doc) (spec : Doc) : List Doc :=
  match ds with
  | [] => []
  | d :: rest => if specMatch spec d then rest else d :: deleteFirstDoc rest spec

/-- `stripKeys`' dynamic argument: either one dict or a list of dicts. -/
inductive DocsArg where
  | one (d : Doc)
  | many (ds : List Doc)
  deriving DecidableEq, Repr

/-- `MSPileupData.stripKeys`.  In the list branch the source appends the
(mutated-in-place) dict once per strip key, so the returned list holds each
non-empty input dict `len(skeys)` times, fully stripped. -/
def stripKeys (docs : DocsArg) (skeys : Option (List String)) : DocsArg :=
  match skeys with
  | none => docs
  | some ks =>
    match docs with
    | .many ds =>
      .many (ds.foldr
        (fun d acc =>
          if !d.isEmpty then List.replicate ks.length (popKeys d ks) ++ acc
          else acc) [])
    | .one d => .one (popKeys d ks)

/-- `MSPileupData.getPileup`: find by spec, strip `_id` from each returned
document.  The source has no exception handling here, so a store fault on
`find` propagates (`Except.error`). -/
def getPileup (store : Store) (spec : Doc) (findFault : Bool) :
    Except String (List Doc) :=
  if findFault then .error "MongoDB find failure"
  else .ok ((store.docs.filter (specMatch spec)).map
    (fun d => match stripKeys (.one d) (some ["_id"]) with
              | .one r => r
              | .many _ => d))

/-- `MSPileupData.createPileup`: construct and validate an `MSPileupObj`
(any construction failure is returned as one `MSPileupDuplicateDocumentError`),
then `insert_one` the document.  The store assigns `_id := oid`.  Only
`errors.DuplicateKeyError` is caught (returned as one duplicate-document
error); any other insert failure — modelled by `insertFault` — propagates
out of the method uncaught. -/
def createPileup (validRSEs : List String) (now : Int) (pdict : Doc)
    (store : Store) (oid : Int) (insertFault : Bool) :
    Except String (List PileupError × Store) :=
  match mkMSPileupObj pdict validRSEs now with
  | .error msg =>
    .ok ([⟨.duplicateDocument, pdict, "Failed to create MSPileupObj, " ++ msg⟩],
         store)
  | .ok obj =>
    let doc := obj.data
    if insertFault then .error "MongoDB insert failure"
    else if store.docs.any (fun d => dget d "pileupName" == dget doc "pileupName") then
      .ok ([⟨.duplicateDocument, doc, "Failed to insert, it already exist in DB"⟩],
           store)
    else .ok ([], ⟨store.docs ++ [dset doc "_id" (.i oid)]⟩)

/-- `MSPileupData.updatePileup`: requires a truthy `pileupName`; looks the
record up via `getPileup` (a find fault there propagates uncaught, since the
lookup is outside the `try`); zero matches → no-key-found, more than one →
unique-constraint error; otherwise stamps `lastUpdateTime := now` on the
incoming document and applies `update_one` with `$set` (any write failure is
caught and returned as one `MSPileupDatabaseError`). -/
def updatePileup (now : Int) (doc : Doc) (store : Store)
    (findFault writeFault : Bool) : Except String (List PileupError × Store) :=
  let pname := dgetD doc "pileupName" (.s "")
  if falsy pname then
    .ok ([⟨.noKeyFound, doc, "No document found"⟩], store)
  else
    let spec := nameSpec pname
    match getPileup store spec findFault with
    | .error e => .error e
    | .ok results =>
      if results.isEmpty then
        .ok ([⟨.noKeyFound, spec, "No document found for query"⟩], store)
      else if results.length != 1 then
        .ok ([⟨.uniqueConstraint, spec, "Unique constrain violated"⟩], store)
      else
        let stamped := dset doc "lastUpdateTime" (.i now)
        if writeFault then
          .ok ([⟨.databaseError, stamped, "Failed to insert"⟩], store)
        else
          .ok ([], ⟨updateFirstDoc store.docs spec stamped⟩)

/-- `MSPileupData.deletePileup`: `delete_one` by spec; any failure is caught
and returned as one `MSPileupDatabaseError`.  Deleting zero matches is a
success. -/
def deletePileup (spec : Doc) (store : Store) (deleteFault : Bool) :
    Except String (List PileupError × Store) :=
  if deleteFault then
    .ok ([⟨.databaseError, spec, "Unable to delete with spec"⟩], store)
  else
    .ok ([], ⟨deleteFirstDoc store.docs spec⟩)

/-- Projection of a `DocsArg` to a list of documents. -/
def manyOf : DocsArg → List Doc
  | .many ds => ds
  | .one d => [d]

/-- Value of `doc.get('pileupName', '')` as computed by `updatePileup`. -/
def pnameOf (doc : Doc) : Value := dgetD doc "pileupName" (.s "")

/-- A fully valid candidate document with all fields held valid except the
`containerFraction` field, which is the parameter.  Used to isolate the
range rule. -/
def cfDoc (q : ℚ) : Doc :=
  [("pileupName", .s "/A/B/C"),
   ("pileupType", .s "classic"),
   ("insertTime", .i 1),
   ("lastUpdateTime", .i 1),
   ("expectedRSEs", .l []),
   ("currentRSEs", .l []),
   ("fullReplicas", .i 0),
   ("campaigns", .l []),
   ("containerFraction", .f q),
   ("replicationGrouping", .s "DATASET"),
   ("activatedOn", .i 1),
   ("deactivatedOn", .i 1),
   ("active", .b false),
   ("pileupSize", .i 0),
   ("ruleList", .l [])]

/-- A fully valid candidate document with all fields held valid except the
two RSE lists, which are the parameters.  Used to isolate the RSE rule. -/
def rseDoc (ers crs : List String) : Doc :=
  [("pileupName", .s "/A/B/C"),
   ("pileupType", .s "classic"),
   ("insertTime", .i 1),
   ("lastUpdateTime", .i 1),
   ("expectedRSEs", .l ers),
   ("currentRSEs", .l crs),
   ("fullReplicas", .i 0),
   ("campaigns", .l []),
   ("containerFraction", .f 1),
   ("replicationGrouping", .s "DATASET"),
   ("activatedOn", .i 1),
   ("deactivatedOn", .i 1),
   ("active", .b false),
   ("pileupSize", .i 0),
   ("ruleList", .l [])]

/-- The candidate mapping of the spec's scenario (§8), with
`containerFraction` at the valid boundary 1.0. -/
def exPdict : Doc :=
  [("pileupName", .s "/A/B/C"),
   ("pileupType", .s "classic"),
   ("replicationGrouping", .s "DATASET"),
   ("containerFraction", .f 1),
   ("expectedRSEs", .l ["Disk1"]),
   ("currentRSEs", .l [])]

/-- The spec scenario's candidate mapping with `containerFraction` omitted. -/
def c3Pdict : Doc :=
  [("pileupName", .s "/A/B/C"),
   ("pileupType", .s "classic"),
   ("replicationGrouping", .s "DATASET"),
   ("expectedRSEs", .l ["Disk1"]),
   ("currentRSEs", .l [])]

/-- The defaults the claim allows for omitted fields: empty string, empty
sequence, zero (int or float), `False`, and the current epoch seconds. -/
def claimDefaults (now : Int) : List Value :=
  [.s "", .l [], .i 0, .f 0, .b false, .i now]

/-- The default applied by `MSPileupObj.__init__` when field `k` is absent:
`gmtimeSeconds()` for the four time fields, otherwise the schema table's
default (in particular `1.0` for `containerFraction`). -/
def constructorDefault (k : String) (now : Int) : Value :=
  if k = "insertTime" || k = "lastUpdateTime" ||
     k = "activatedOn" || k = "deactivatedOn" then .i now
  else match schemaFind k with
       | some dt => dt.1
       | none => .s ""

/-- The constructor's defaults as amended: the claim's set plus `1.0`. -/
def amendedDefaults (now : Int) : List Value :=
  [.s "", .l [], .i 0, .f 0, .b false, .i now, .f 1]

/-- A stored record for the update frame counterexample: `insertTime` is 5. -/
def c2m : Doc :=
  [("pileupName", .s "/A/B/C"), ("insertTime", .i 5), ("lastUpdateTime", .i 10)]

/-- An update input carrying a different `insertTime` (999). -/
def c2doc : Doc :=
  [("pileupName", .s "/A/B/C"), ("insertTime", .i 999)]

/-- Store holding exactly the record `c2m`. -/
def c2store : Store := ⟨[c2m]⟩

/-- A validated `MSPileupObj` built from the spec scenario's mapping. -/
def exObj : MSPileupObj := ⟨defaultedData exPdict 100, ["Disk1", "Disk2"]⟩

/-- An update input for the same record that omits `insertTime`. -/
def c2doc2 : Doc := [("pileupName", .s "/A/B/C")]

/-- The stored record after updating `c2m` with `c2doc2` at time 50. -/
def c2res : Doc := applySet c2m (dset c2doc2 "lastUpdateTime" (.i 50))

theorem dget_dset_self (d : Doc) (k : String) (v : Value) :
    dget (dset d k v) k = some v := by
  induction d with
  | nil => simp [dget, dset]
  | cons kv rest ih => by_cases h : kv.1 = k <;> simp [dset, dget, h, ih]

theorem dget_dset_ne (d : Doc) (k q : String) (v : Value) (h : q ≠ k) :
    dget (dset d k v) q = dget d q := by
  induction d with
  | nil =>
    simp [dget, dset]
    exact Ne.symm h
  | cons kv rest ih =>
    by_cases hk : kv.1 = k
    · simp only [dset, hk, beq_self_eq_true, if_true, dget]
      rw [if_neg (by simpa using Ne.symm h), if_neg (by simpa [hk] using Ne.symm h)]
    · simp only [dset, dget, beq_iff_eq, hk, if_false]
      by_cases hq : kv.1 = q <;> simp [dget, hq, ih]

theorem dget_eq_none_of_not_mem (d : Doc) (k : String) (h : k ∉ keys d) :
    dget d k = none := by
  induction d with
  | nil => simp [dget]
  | cons kv rest ih =>
    simp only [keys, List.map_cons, List.mem_cons] at h
    push_neg at h
    simp only [dget, beq_iff_eq]
    rw [if_neg (fun hh => h.1 hh.symm)]
    exact ih h.2

theorem dset_eq_append (d : Doc) (k : String) (v : Value) (h : k ∉ keys d) :
    dset d k v = d ++ [(k, v)] := by
  induction d with
  | nil => simp [dset]
  | cons kv rest ih =>
    simp only [keys, List.map_cons, List.mem_cons] at h
    push_neg at h
    simp only [dset, beq_iff_eq, List.cons_append]
    rw [if_neg (fun hh : kv.1 = k => h.1 hh.symm), ih h.2]

theorem dget_applySet (d u : Doc) (k : String) (hu : (keys u).Nodup) :
    dget (applySet d u) k =
      match dget u k with
      | some v => some v
      | none => dget d k := by
  induction u generalizing d with
  | nil => simp [applySet, dget]
  | cons kv rest ih =>
    simp only [keys, List.map_cons, List.nodup_cons] at hu
    have step : applySet d (kv :: rest) = applySet (dset d kv.1 kv.2) rest := rfl
    rw [step, ih _ hu.2]
    by_cases h : kv.1 = k
    · have hnone : dget rest k = none := by
        apply dget_eq_none_of_not_mem
        rw [← h]
        exact hu.1
      simp [dget, hnone, h, dget_dset_self]
    · simp only [dget, beq_iff_eq, h, if_false]
      cases hr : dget rest k with
      | some v => simp
      | none => simp [dget_dset_ne d kv.1 k kv.2 (fun hh => h hh.symm)]

theorem popKeys_append (a b : Doc) (ks : List String) :
    popKeys (a ++ b) ks = popKeys a ks ++ popKeys b ks := by
  simp [popKeys, List.filter_append]

theorem popKeys_eq_self (d : Doc) (ks : List String)
    (h : ∀ kv ∈ d, kv.1 ∉ ks) : popKeys d ks = d := by
  unfold popKeys
  rw [List.filter_eq_self]
  intro kv hkv
  simpa using h kv hkv

theorem dget_popKeys_mem (d : Doc) (ks : List String) (k : String)
    (h : k ∈ ks) : dget (popKeys d ks) k = none := by
  induction d with
  | nil => simp [popKeys, dget]
  | cons kv rest ih =>
    by_cases hm : kv.1 ∈ ks
    · simpa [popKeys, hm] using ih
    · have hk : kv.1 ≠ k := fun hh => hm (hh ▸ h)
      simpa [popKeys, hm, dget, hk] using ih

theorem validateRSEs_iff (vs rs : List String) :
    validateRSEs vs rs = true ↔ (rs = vs ∨ ∀ r ∈ rs, r ∈ vs) := by
  unfold validateRSEs
  by_cases h : rs = vs
  · simp [h]
  · simp [h, List.all_eq_true]

/-- C6: validation of the two RSE list fields, all other fields held valid:
it succeeds exactly when each list equals the configured valid-site list or
has all its elements in it; a list with an element outside the valid-site
set fails. -/
theorem c6_rse_validation (vs ers crs : List String) :
    (validateDoc vs (rseDoc ers crs)).1 = true ↔
      ((ers = vs ∨ ∀ r ∈ ers, r ∈ vs) ∧ (crs = vs ∨ ∀ r ∈ crs, r ∈ vs)) := by
  have hname : datasetMatch "/A/B/C" = true := by decide
  have hcf : cfOutOfRange (.f 1) = false := by decide
  rw [← validateRSEs_iff, ← validateRSEs_iff]
  by_cases h1 : validateRSEs vs ers = true <;>
    by_cases h2 : validateRSEs vs crs = true <;>
      simp [validateDoc, validateItems, validateEntry, schemaFind, schema,
        schemaKeys, keySetEq, keys, rseDoc, typeMatches, hname, rsesOf, hcf,
        h1, h2]

/-- C7: validation of the `containerFraction` field, all other fields held
valid: it succeeds exactly on the closed interval [0, 1], including both
boundaries, and fails outside it. -/
theorem c7_container_fraction (q : ℚ) :
    (validateDoc ["Disk1"] (cfDoc q)).1 = true ↔ 0 ≤ q ∧ q ≤ 1 := by
  have hname : datasetMatch "/A/B/C" = true := by decide
  by_cases hc : 1 < q ∨ q < 0
  · simp [validateDoc, validateItems, validateEntry, schemaFind, schema,
      schemaKeys, keySetEq, keys, cfDoc, typeMatches, hname, validateRSEs,
      rsesOf, cfOutOfRange, hc]
    intro h0
    rcases hc with hc | hc
    · exact hc
    · linarith
  · simp [validateDoc, validateItems, validateEntry, schemaFind, schema,
      schemaKeys, keySetEq, keys, cfDoc, typeMatches, hname, validateRSEs,
      rsesOf, cfOutOfRange, hc]
    push_neg at hc
    exact ⟨hc.2, hc.1⟩

/-- C10: on a list of non-empty dictionaries and a non-empty strip-key list,
`stripKeys` returns each input dictionary (fully stripped of the keys) once
per strip key — `len(skeys)` copies each, `docs.length * skeys.length`
entries in total — and with `skeys = None` it returns the input unchanged. -/
theorem c10_strip_keys (docs : List Doc) (skeys : List String)
    (hne : ∀ d ∈ docs, d ≠ []) (_hsk : skeys ≠ []) :
    manyOf (stripKeys (.many docs) (some skeys)) =
      docs.flatMap (fun d => List.replicate skeys.length (popKeys d skeys)) ∧
    (manyOf (stripKeys (.many docs) (some skeys))).length =
      docs.length * skeys.length ∧
    (∀ a : DocsArg, stripKeys a none = a) := by
  have hmain : manyOf (stripKeys (.many docs) (some skeys)) =
      docs.flatMap (fun d => List.replicate skeys.length (popKeys d skeys)) := by
    induction docs with
    | nil => rfl
    | cons d rest ih =>
      have hd : d ≠ [] := hne d (by simp)
      have ihr := ih (fun x hx => hne x (by simp [hx]))
      simp only [stripKeys, manyOf, List.foldr_cons, List.flatMap_cons] at ihr ⊢
      rw [← ihr]
      simp [List.isEmpty_iff, hd]
  have hlen : ∀ l : List Doc,
      (l.flatMap (fun d => List.replicate skeys.length (popKeys d skeys))).length =
        l.length * skeys.length := by
    intro l
    induction l with
    | nil => simp
    | cons d rest ih =>
      simp [List.flatMap_cons, ih, Nat.succ_mul, Nat.add_comm]
  refine ⟨hmain, ?_, ?_⟩
  · rw [hmain, hlen]
  · intro a
    cases a <;> rfl

/-- Witness for C10 at a concrete input: one non-empty dict, two strip keys,
the dict comes back twice. -/
theorem c10_witness :
    manyOf (stripKeys (.many [[("a", Value.i 1)]]) (some ["x", "y"])) =
      [[("a", Value.i 1)], [("a", Value.i 1)]] := by
  have h := c10_strip_keys [[("a", Value.i 1)]] ["x", "y"] (by decide) (by decide)
  rw [h.1]
  rfl

/-- C3 (amended): every omitted field of the candidate receives the
constructor's default before validation — empty string, empty sequence,
zero, `False`, the current epoch seconds for the four time fields, or `1.0`
for `containerFraction` — the defaulted mapping has exactly the 15 schema
keys, and construction succeeds exactly when validation of that fully
defaulted mapping succeeds. -/
theorem c3_defaulting (pdict : Doc) (now : Int) (k : String) (vs : List String)
    (hk : k ∈ schemaKeys) (habs : dget pdict k = none) :
    dget (defaultedData pdict now) k = some (constructorDefault k now) ∧
    constructorDefault k now ∈ amendedDefaults now ∧
    keys (defaultedData pdict now) = schemaKeys ∧
    (mkMSPileupObj pdict vs now).isOk = (validateDoc vs (defaultedData pdict now)).1 := by
  refine ⟨?_, ?_, rfl, ?_⟩
  · simp [schemaKeys, schema] at hk
    rcases hk with rfl | rfl | rfl | rfl | rfl | rfl | rfl | rfl | rfl | rfl |
      rfl | rfl | rfl | rfl | rfl <;>
      simp [defaultedData, dget, dgetD, habs, constructorDefault, schemaFind,
        schema]
  · simp [schemaKeys, schema] at hk
    rcases hk with rfl | rfl | rfl | rfl | rfl | rfl | rfl | rfl | rfl | rfl |
      rfl | rfl | rfl | rfl | rfl <;>
      simp [constructorDefault, schemaFind, schema, amendedDefaults]
  · cases hv : (validateDoc vs (defaultedData pdict now)).1 <;>
      simp [mkMSPileupObj, hv, Except.isOk, Except.toBool]

/-- Counterexample to C3 as stated: omitting `containerFraction` defaults it
to `1.0`, which is none of the claimed default values (empty string, empty
sequence, zero, `False`, current epoch seconds); the record still constructs
successfully. -/
theorem c3_counterexample :
    dget c3Pdict "containerFraction" = none ∧
    mkMSPileupObj c3Pdict ["Disk1", "Disk2"] 100 =
      .ok ⟨defaultedData c3Pdict 100, ["Disk1", "Disk2"]⟩ ∧
    dget (defaultedData c3Pdict 100) "containerFraction" = some (.f 1) ∧
    (Value.f 1) ∉ claimDefaults 100 :=
  ⟨rfl, rfl, rfl, by decide⟩

/-- Witness for C3 (amended) at a concrete input: the empty candidate and
the omitted field `containerFraction` at time 100. -/
theorem c3_witness :
    dget (defaultedData [] 100) "containerFraction" =
      some (constructorDefault "containerFraction" 100) ∧
    constructorDefault "containerFraction" 100 ∈ amendedDefaults 100 :=
  have h := c3_defaulting [] 100 "containerFraction" ["Disk1"]
    (by decide) (by decide)
  ⟨h.1, h.2.1⟩

/-- C5 (amended): every NON-EMPTY candidate mapping whose key set differs
from the 15-field schema key set fails validation with a `(False, message)`
result. -/
theorem c5_keyset_mismatch (obj : MSPileupObj) (pdict : Doc)
    (hne : pdict ≠ []) (hk : keySetEq (keys pdict) schemaKeys = false) :
    (objValidate obj pdict).1 = false := by
  simp [objValidate, List.isEmpty_iff, hne, validateDoc, hk]

/-- Counterexample to C5 as stated: the empty mapping's key set differs from
the schema's (all 15 keys are missing), yet `validate({})` returns `True`,
because a falsy `pdict` argument makes the method validate the object's own
internal data instead. -/
theorem c5_counterexample :
    mkMSPileupObj exPdict ["Disk1", "Disk2"] 100 = .ok exObj ∧
    keySetEq (keys ([] : Doc)) schemaKeys = false ∧
    (objValidate exObj []).1 = true :=
  ⟨rfl, rfl, rfl⟩

/-- Witness for C5 (amended) at a concrete input: a one-key mapping with a
non-schema key fails validation. -/
theorem c5_witness : (objValidate exObj [("foo", Value.i 1)]).1 = false :=
  c5_keyset_mismatch exObj [("foo", Value.i 1)] (by decide) (by decide)

/-- C9: the record constructor projects the candidate onto exactly the 15
schema fields — two candidates agreeing on the schema keys construct
identically, so extra keys are dropped and never cause failure — and
construction succeeds exactly when the defaulted projection validates, even
though direct validation of a mapping with an extra key fails. -/
theorem c9_projection (p1 p2 : Doc) (vs : List String) (now : Int) :
    ((∀ k ∈ schemaKeys, dget p1 k = dget p2 k) →
        mkMSPileupObj p1 vs now = mkMSPileupObj p2 vs now) ∧
    ((mkMSPileupObj p1 vs now).isOk = (validateDoc vs (defaultedData p1 now)).1) ∧
    ((∃ k ∈ keys p1, k ∉ schemaKeys) → (validateDoc vs p1).1 = false) := by
  refine ⟨?_, ?_, ?_⟩
  · intro h
    have e : defaultedData p1 now = defaultedData p2 now := by
      simp only [defaultedData, dgetD]
      rw [h "pileupName" (by decide), h "pileupType" (by decide),
        h "insertTime" (by decide), h "lastUpdateTime" (by decide),
        h "expectedRSEs" (by decide), h "currentRSEs" (by decide),
        h "fullReplicas" (by decide), h "campaigns" (by decide),
        h "containerFraction" (by decide), h "replicationGrouping" (by decide),
        h "activatedOn" (by decide), h "deactivatedOn" (by decide),
        h "active" (by decide), h "pileupSize" (by decide),
        h "ruleList" (by decide)]
    simp only [mkMSPileupObj, e]
  · cases hv : (validateDoc vs (defaultedData p1 now)).1 <;>
      simp [mkMSPileupObj, hv, Except.isOk, Except.toBool]
  · rintro ⟨k, hk1, hk2⟩
    have hall : (keys p1).all (fun k => schemaKeys.contains k) = false := by
      rw [List.all_eq_false]
      exact ⟨k, hk1, by simpa using hk2⟩
    have hks : keySetEq (keys p1) schemaKeys = false := by
      simp only [keySetEq, hall, Bool.false_and]
    simp only [validateDoc, hks, Bool.not_false, if_true]

/-- Witness for C9 at a concrete input: a candidate with the extra key
`foo` constructs the same record as the candidate without it, and fails
direct validation. -/
theorem c9_witness :
    mkMSPileupObj (exPdict ++ [("foo", Value.i 1)]) ["Disk1", "Disk2"] 100 =
      mkMSPileupObj exPdict ["Disk1", "Disk2"] 100 ∧
    (validateDoc ["Disk1", "Disk2"] (exPdict ++ [("foo", Value.i 1)])).1 = false :=
  have h := c9_projection (exPdict ++ [("foo", Value.i 1)]) exPdict
    ["Disk1", "Disk2"] 100
  ⟨h.1 (by decide), h.2.2 ⟨"foo", by decide, by decide⟩⟩

theorem updatePileup_write_eq (now : Int) (doc : Doc) (store : Store)
    (pname : String)
    (hpn : dget doc "pileupName" = some (.s pname))
    (hemp : pname.isEmpty = false)
    (hlen : (store.docs.filter (specMatch (nameSpec (.s pname)))).length = 1) :
    updatePileup now doc store false false =
      .ok ([], ⟨updateFirstDoc store.docs (nameSpec (.s pname))
        (dset doc "lastUpdateTime" (.i now))⟩) := by
  obtain ⟨a, hf⟩ := List.length_eq_one.mp hlen
  simp [updatePileup, dgetD, hpn, falsy, hemp, getPileup, hf]

theorem eq_applySet_of_mem_updateFirst (ds : List Doc) (spec u m : Doc)
    (hf : ds.filter (specMatch spec) = [m]) :
    ∀ d ∈ updateFirstDoc ds spec u, specMatch spec d = true →
      d = applySet m u := by
  induction ds with
  | nil => simp at hf
  | cons d0 rest ih =>
    by_cases h0 : specMatch spec d0 = true
    · have hcons : d0 :: rest.filter (specMatch spec) = [m] := by
        rw [← hf]
        simp [List.filter_cons, h0]
      have hd0 : d0 = m := (List.cons_eq_cons.mp hcons).1
      have hrest : rest.filter (specMatch spec) = [] :=
        (List.cons_eq_cons.mp hcons).2
      intro d hd hmt
      simp only [updateFirstDoc, h0, if_true, List.mem_cons] at hd
      rcases hd with rfl | hd
      · rw [hd0]
      · exact absurd hmt (by
          rw [List.filter_eq_nil_iff] at hrest
          exact hrest d hd)
    · have hrf : rest.filter (specMatch spec) = [m] := by
        rw [← hf]
        simp [List.filter_cons, h0]
      intro d hd hmt
      simp [updateFirstDoc, h0] at hd
      rcases hd with hd | hd
      · subst hd
        exact absurd hmt h0
      · exact ih hrf d hd hmt

theorem keys_dset (d : Doc) (k : String) (v : Value) :
    keys (dset d k v) = if k ∈ keys d then keys d else keys d ++ [k] := by
  induction d with
  | nil => simp [dset, keys]
  | cons kv rest ih =>
    by_cases h : kv.1 = k
    · simp [dset, keys, h]
    · simp only [dset, beq_iff_eq, h, if_false, keys, List.map_cons] at ih ⊢
      rw [ih]
      by_cases hm : k ∈ List.map Prod.fst rest
      · rw [if_pos hm, if_pos (by simp [hm])]
      · rw [if_neg hm, if_neg (by simp [hm]; exact fun hh => h hh.symm)]
        simp

theorem nodup_keys_dset (d : Doc) (k : String) (v : Value)
    (h : (keys d).Nodup) : (keys (dset d k v)).Nodup := by
  rw [keys_dset]
  by_cases hm : k ∈ keys d
  · simp [hm, h]
  · simp [hm, List.nodup_append, h]

/-- C4: `updatePileup` returns exactly one KeyNotFound error when the
input's `pileupName` is absent or the empty string; exactly one KeyNotFound
error, leaving the store unchanged, when the name is non-empty but matches
zero stored records; exactly one UniqueConstraintViolated error when it
matches more than one; and proceeds to the `$set` write exactly when it
matches one. -/
theorem c4_update_dispatch (now : Int) (doc : Doc) (store : Store) (wf : Bool) :
    ((dget doc "pileupName" = none ∨ dget doc "pileupName" = some (.s "")) →
      updatePileup now doc store false wf =
        .ok ([⟨.noKeyFound, doc, "No document found"⟩], store)) ∧
    (∀ pname : String, dget doc "pileupName" = some (.s pname) →
      pname.isEmpty = false →
      store.docs.filter (specMatch (nameSpec (.s pname))) = [] →
      updatePileup now doc store false wf =
        .ok ([⟨.noKeyFound, nameSpec (.s pname), "No document found for query"⟩],
             store)) ∧
    (∀ pname : String, dget doc "pileupName" = some (.s pname) →
      pname.isEmpty = false →
      1 < (store.docs.filter (specMatch (nameSpec (.s pname)))).length →
      updatePileup now doc store false wf =
        .ok ([⟨.uniqueConstraint, nameSpec (.s pname), "Unique constrain violated"⟩],
             store)) ∧
    (∀ pname : String, dget doc "pileupName" = some (.s pname) →
      pname.isEmpty = false →
      (store.docs.filter (specMatch (nameSpec (.s pname)))).length = 1 →
      wf = false →
      updatePileup now doc store false wf =
        .ok ([], ⟨updateFirstDoc store.docs (nameSpec (.s pname))
          (dset doc "lastUpdateTime" (.i now))⟩)) := by
  refine ⟨?_, ?_, ?_, ?_⟩
  · intro h
    have hstr : ("" : String).isEmpty = true := by decide
    rcases h with h | h <;> simp [updatePileup, dgetD, h, falsy, hstr]
  · intro pname hpn hemp hf
    simp [updatePileup, dgetD, hpn, falsy, hemp, getPileup, hf]
  · intro pname hpn hemp hlen
    rcases hf : store.docs.filter (specMatch (nameSpec (.s pname))) with _ | ⟨a, t⟩
    · rw [hf] at hlen
      simp at hlen
    · rw [hf] at hlen
      simp only [List.length_cons] at hlen
      have ht : t.length ≠ 0 := by omega
      simp [updatePileup, dgetD, hpn, falsy, hemp, getPileup, hf, ht]
  · intro pname hpn hemp hlen hwf
    subst hwf
    exact updatePileup_write_eq now doc store pname hpn hemp hlen

/-- Witness for C4 at a concrete input: a non-empty name absent from an
empty store yields exactly one KeyNotFound error and the store unchanged. -/
theorem c4_witness :
    updatePileup 100 [("pileupName", Value.s "/X/Y/Z")] ⟨[]⟩ false false =
      .ok ([⟨.noKeyFound, nameSpec (.s "/X/Y/Z"), "No document found for query"⟩],
           ⟨[]⟩) :=
  (c4_update_dispatch 100 [("pileupName", Value.s "/X/Y/Z")] ⟨[]⟩ false).2.1
    "/X/Y/Z" (by decide) (by decide) rfl

/-- C2 (amended): updating the single record matching a non-empty
`pileupName` stamps the stored record's `lastUpdateTime` to the current
time — which is ≥ the previous value whenever the clock has not gone
backwards — and leaves `insertTime` unchanged PROVIDED the input document
omits `insertTime` or carries the stored value (the `$set` write would
otherwise overwrite it). -/
theorem c2_update_frame (store : Store) (doc m : Doc) (now prev : Int)
    (pname : String)
    (hnod : (keys doc).Nodup)
    (hpn : dget doc "pileupName" = some (.s pname))
    (hemp : pname.isEmpty = false)
    (hmatch : store.docs.filter (specMatch (nameSpec (.s pname))) = [m])
    (hins : dget doc "insertTime" = none ∨
            dget doc "insertTime" = dget m "insertTime")
    (hlast : dget m "lastUpdateTime" = some (.i prev))
    (hmono : prev ≤ now) :
    ∃ st2 : Store, updatePileup now doc store false false = .ok ([], st2) ∧
      dget m "lastUpdateTime" = some (.i prev) ∧
      ∀ d ∈ st2.docs, specMatch (nameSpec (.s pname)) d = true →
        dget d "insertTime" = dget m "insertTime" ∧
        dget d "lastUpdateTime" = some (.i now) ∧ prev ≤ now := by
  have hlen : (store.docs.filter (specMatch (nameSpec (.s pname)))).length = 1 := by
    rw [hmatch]
    rfl
  refine ⟨_, updatePileup_write_eq now doc store pname hpn hemp hlen, hlast, ?_⟩
  intro d hd hmt
  have hde := eq_applySet_of_mem_updateFirst store.docs (nameSpec (.s pname))
    (dset doc "lastUpdateTime" (.i now)) m hmatch d hd hmt
  subst hde
  have hnodS : (keys (dset doc "lastUpdateTime" (.i now))).Nodup :=
    nodup_keys_dset doc "lastUpdateTime" (.i now) hnod
  have hset := dget_applySet m (dset doc "lastUpdateTime" (.i now)) "insertTime" hnodS
  have hlu := dget_applySet m (dset doc "lastUpdateTime" (.i now)) "lastUpdateTime" hnodS
  rw [dget_dset_self] at hlu
  rw [dget_dset_ne doc "lastUpdateTime" "insertTime" (.i now) (by decide)] at hset
  refine ⟨?_, by simpa using hlu, hmono⟩
  rcases hins with hins | hins
  · rw [hset, hins]
  · rw [hset, hins]
    cases hv : dget m "insertTime" <;> simp

/-- Counterexample to C2 as stated: the caller may pass a document carrying
a different `insertTime` (here 999); the `$set` write then changes the
stored record's `insertTime` from 5 to 999. -/
theorem c2_counterexample :
    dget c2m "insertTime" = some (.i 5) ∧
    updatePileup 50 c2doc c2store false false =
      .ok ([], ⟨[applySet c2m (dset c2doc "lastUpdateTime" (.i 50))]⟩) ∧
    dget (applySet c2m (dset c2doc "lastUpdateTime" (.i 50))) "insertTime" =
      some (.i 999) :=
  ⟨rfl, rfl, rfl⟩

/-- Witness for C2 (amended) at a concrete input: updating `c2m` through an
input that omits `insertTime` keeps `insertTime` at 5 and stamps
`lastUpdateTime` to 50. -/
theorem c2_witness :
    dget c2res "insertTime" = some (Value.i 5) ∧
    dget c2res "lastUpdateTime" = some (Value.i 50) := by
  obtain ⟨st2, h1, hprev, h2⟩ := c2_update_frame c2store c2doc2 c2m 50 10 "/A/B/C"
    (by decide) (by decide) (by decide) (by decide) (by decide) (by decide)
    (by decide)
  have e : updatePileup 50 c2doc2 c2store false false =
      .ok ([], (⟨[c2res]⟩ : Store)) := rfl
  rw [e] at h1
  have hst : (⟨[c2res]⟩ : Store) = st2 := by
    injection h1 with h1e
    exact congrArg Prod.snd h1e
  have hm := h2 c2res (by rw [← hst]; exact List.mem_singleton_self c2res)
    (by decide)
  refine ⟨?_, hm.2.1⟩
  rw [hm.1]
  rfl

theorem mk_ok_inv (pdict : Doc) (vs : List String) (now : Int)
    (obj : MSPileupObj) (h : mkMSPileupObj pdict vs now = .ok obj) :
    obj = ⟨defaultedData pdict now, vs⟩ ∧
    (validateDoc vs (defaultedData pdict now)).1 = true := by
  by_cases hv : (validateDoc vs (defaultedData pdict now)).1 = true
  · simp only [mkMSPileupObj, hv, if_true] at h
    exact ⟨(Except.ok.inj h).symm, hv⟩
  · simp only [mkMSPileupObj, Bool.not_eq_true] at h hv
    rw [hv] at h
    simp at h

theorem keys_defaultedData (pdict : Doc) (now : Int) :
    keys (defaultedData pdict now) = schemaKeys := rfl

/-- C8: every document returned by `getPileup` has the store-internal `_id`
field stripped, and a successful `createPileup` followed by `getPileup` on
the record's `pileupName` returns exactly the created 15-field document. -/
theorem c8_read_strips_and_roundtrip (store : Store) (spec : Doc)
    (vs : List String) (now oid : Int) (pdict : Doc) (st2 : Store) :
    (∀ rs, getPileup store spec false = .ok rs →
      ∀ d ∈ rs, dget d "_id" = none) ∧
    (createPileup vs now pdict store oid false = .ok ([], st2) →
      getPileup st2
        (nameSpec (dgetD (defaultedData pdict now) "pileupName" (.s ""))) false =
        .ok [defaultedData pdict now]) := by
  constructor
  · intro rs h d hd
    simp only [getPileup, Bool.false_eq_true, if_false, Except.ok.injEq] at h
    subst h
    obtain ⟨d0, _, hd0⟩ := List.mem_map.mp hd
    have : d = popKeys d0 ["_id"] := by
      rw [← hd0]
      rfl
    rw [this]
    exact dget_popKeys_mem d0 ["_id"] "_id" (by decide)
  · intro h
    cases hmk : mkMSPileupObj pdict vs now with
    | error msg =>
      have hc : createPileup vs now pdict store oid false =
          .ok ([⟨.duplicateDocument, pdict,
            "Failed to create MSPileupObj, " ++ msg⟩], store) := by
        simp [createPileup, hmk]
      rw [hc] at h
      simp at h
    | ok obj =>
      obtain ⟨hobj, _⟩ := mk_ok_inv pdict vs now obj hmk
      subst hobj
      cases hdup : Store.docs store |>.any
          (fun d => dget d "pileupName" ==
            dget (defaultedData pdict now) "pileupName") with
      | true =>
        have hc : createPileup vs now pdict store oid false =
            .ok ([⟨.duplicateDocument, defaultedData pdict now,
              "Failed to insert, it already exist in DB"⟩], store) := by
          simp [createPileup, hmk, hdup]
        rw [hc] at h
        simp at h
      | false =>
        have hc : createPileup vs now pdict store oid false =
            .ok ([], ⟨store.docs ++
              [dset (defaultedData pdict now) "_id" (.i oid)]⟩) := by
          simp [createPileup, hmk, hdup]
        rw [hc] at h
        have hst : (⟨store.docs ++
            [dset (defaultedData pdict now) "_id" (.i oid)]⟩ : Store) = st2 := by
          injection h with h1
          exact congrArg Prod.snd h1
        subst hst
        have hid : "_id" ∉ keys (defaultedData pdict now) := by
          rw [keys_defaultedData]
          decide
        have happ : dset (defaultedData pdict now) "_id" (.i oid) =
            defaultedData pdict now ++ [("_id", .i oid)] :=
          dset_eq_append _ _ _ hid
        have hpv : dget (defaultedData pdict now) "pileupName" =
            some (dgetD (defaultedData pdict now) "pileupName" (.s "")) := rfl
        have hmatchNew : specMatch
            (nameSpec (dgetD (defaultedData pdict now) "pileupName" (.s "")))
            (dset (defaultedData pdict now) "_id" (.i oid)) = true := by
          simp only [specMatch, nameSpec, List.all_cons, List.all_nil,
            Bool.and_true]
          rw [dget_dset_ne _ _ _ _ (by decide), hpv]
          simp
        have hmatchOld : ∀ d ∈ store.docs, specMatch
            (nameSpec (dgetD (defaultedData pdict now) "pileupName" (.s "")))
            d = false := by
          intro d hdm
          have hne := List.any_eq_false.mp hdup d hdm
          simp only [specMatch, nameSpec, List.all_cons, List.all_nil,
            Bool.and_true]
          rw [hpv] at hne
          simpa using hne
        have hstrip : popKeys (dset (defaultedData pdict now) "_id" (.i oid))
            ["_id"] = defaultedData pdict now := by
          rw [happ, popKeys_append]
          have h1 : popKeys (defaultedData pdict now) ["_id"] =
              defaultedData pdict now := by
            apply popKeys_eq_self
            intro kv hkv
            have : kv.1 ∈ keys (defaultedData pdict now) :=
              List.mem_map_of_mem Prod.fst hkv
            rw [keys_defaultedData] at this
            intro hc
            simp at hc
            rw [hc] at this
            exact absurd this (by decide)
          rw [h1]
          rfl
        simp only [getPileup, Bool.false_eq_true, if_false, List.filter_append,
          Except.ok.injEq]
        rw [List.filter_eq_nil_iff.mpr (by
          intro d hdm
          simp [hmatchOld d hdm])]
        simp only [List.nil_append, List.filter_cons, hmatchNew, if_true,
          List.filter_nil, List.map_cons, List.map_nil]
        rw [show (match stripKeys
            (.one (dset (defaultedData pdict now) "_id" (.i oid)))
            (some ["_id"]) with
          | .one r => r
          | .many _ => dset (defaultedData pdict now) "_id" (.i oid)) =
            popKeys (dset (defaultedData pdict now) "_id" (.i oid)) ["_id"]
          from rfl, hstrip]

/-- Counterexample to C1 as stated: a non-duplicate store failure during
`createPileup`'s insert is not caught (only `DuplicateKeyError` is), so the
exception propagates across the registry boundary instead of being returned
as a StoreError in a list. -/
theorem c1_counterexample :
    createPileup ["Disk1", "Disk2"] 100 exPdict ⟨[]⟩ 7 true =
      .error "MongoDB insert failure" := rfl

/-- C1 (amended): each expected failure mode maps to exactly one structured
error in the returned list — validation failure and duplicate key on create
are one DuplicateDocument error each, a write failure on update and any
failure on delete are one StoreError (database error) each — and update
(lookup succeeding) and delete never raise; but create's non-duplicate
insert failures and any read failure propagate as exceptions
(`Except.error`), since the source catches only `DuplicateKeyError` on
insert and nothing on `find`. -/
theorem c1_error_paths (vs : List String) (now oid : Int)
    (pdict doc spec : Doc) (store : Store) (pname msg : String) (wf f : Bool) :
    (mkMSPileupObj pdict vs now = .error msg →
      createPileup vs now pdict store oid f =
        .ok ([⟨.duplicateDocument, pdict,
          "Failed to create MSPileupObj, " ++ msg⟩], store)) ∧
    (∀ obj : MSPileupObj, mkMSPileupObj pdict vs now = .ok obj →
      store.docs.any
        (fun d => dget d "pileupName" == dget obj.data "pileupName") = true →
      createPileup vs now pdict store oid false =
        .ok ([⟨.duplicateDocument, obj.data,
          "Failed to insert, it already exist in DB"⟩], store)) ∧
    (dget doc "pileupName" = some (.s pname) → pname.isEmpty = false →
      (store.docs.filter (specMatch (nameSpec (.s pname)))).length = 1 →
      updatePileup now doc store false true =
        .ok ([⟨.databaseError, dset doc "lastUpdateTime" (.i now),
          "Failed to insert"⟩], store)) ∧
    (deletePileup spec store true =
      .ok ([⟨.databaseError, spec, "Unable to delete with spec"⟩], store)) ∧
    ((deletePileup spec store f).isOk = true) ∧
    ((updatePileup now doc store false wf).isOk = true) ∧
    (getPileup store spec true = .error "MongoDB find failure") := by
  refine ⟨?_, ?_, ?_, rfl, ?_, ?_, rfl⟩
  · intro h
    simp [createPileup, h]
  · intro obj hmk hdup
    simp [createPileup, hmk, hdup]
  · intro hpn hemp hlen
    obtain ⟨a, hf⟩ := List.length_eq_one.mp hlen
    simp [updatePileup, dgetD, hpn, falsy, hemp, getPileup, hf]
  · cases f <;> rfl
  · by_cases hfal : falsy (dgetD doc "pileupName" (.s "")) = true
    · simp [updatePileup, hfal, Except.isOk, Except.toBool]
    · simp only [updatePileup, hfal, Bool.false_eq_true, if_false, getPileup]
      split_ifs <;> simp [Except.isOk, Except.toBool]

/-- Witness for C1 (amended) at a concrete input: constructing from the
empty candidate fails validation (empty `pileupName`), and `createPileup`
returns that failure as exactly one DuplicateDocument-class error. -/
theorem c1_witness :
    createPileup ["Disk1"] 100 ([] : Doc) ⟨[]⟩ 7 false =
      .ok ([⟨.duplicateDocument, [],
        "Failed to create MSPileupObj, MSPileup input is invalid, " ++
          "pileupName value does not match dataset pattern"⟩], ⟨[]⟩) := by
  have h := (c1_error_paths ["Disk1"] 100 7 [] [] [] ⟨[]⟩ "" ("MSPileup input is invalid, " ++
    "pileupName value does not match dataset pattern") false false).1 rfl
  exact h

/-- Witness for C8 at a concrete input: creating the spec scenario's record
in an empty store and reading it back by name returns exactly the created
15-field document, with no `_id`. -/
theorem c8_witness :
    getPileup (⟨[dset (defaultedData exPdict 100) "_id" (.i 7)]⟩ : Store)
      (nameSpec (.s "/A/B/C")) false = .ok [defaultedData exPdict 100] := by
  have h := (c8_read_strips_and_roundtrip ⟨[]⟩ (nameSpec (.s "/A/B/C"))
    ["Disk1", "Disk2"] 100 7 exPdict
    ⟨[dset (defaultedData exPdict 100) "_id" (.i 7)]⟩).2 rfl
  exact h

end MSPileup
